import Mathlib

/-!
# IAM authentication hook (`hooks/iam_auth.go`)

A shallow embedding of the `IAMAuthHook` broker hook.  The hook turns a
connect attempt or a topic access into one remote call on the IAM service
and maps the outcome of that call to a boolean verdict.

Conventions of the embedding:

* Go strings (and the `[]byte` password, which the source converts with
  `string(...)`) are Lean strings.
* A Go pointer that may be `nil` is an `Option`; dereferencing `none`
  is the fault `nilPointerDereference`.
* Effects are explicit state passing over `World`: the logical clock (in
  nanoseconds), the records written through the standard logger, the remote
  calls issued so far, and the connections closed so far.
* The gRPC library, the generated IAM client and the broker constants are
  not part of this repository; they are parameters of the embedding
  (`IAMClient`, `Grpc`, `HookEvents`).
-/

namespace Hooks

/-! ## Library types -/

/-- Value of Go's `error` interface, identified by the text its `Error()` method returns
(which is what the `%v` verb prints). A nil error is `none : Option GoError`. -/
structure GoError where
  Error : String
deriving DecidableEq, Repr

/-- Faults that unwind the calling goroutine instead of returning a value. -/
inductive Fault where
  | nilPointerDereference
deriving DecidableEq, Repr

/-- One second as a `time.Duration` (nanoseconds). -/
def Second : Nat := 1000000000

/-- The part of a `context.Context` the hook controls: its deadline, as an absolute
time on the logical clock (`none`: no deadline). -/
structure Context where
  deadline : Option Nat
deriving DecidableEq, Repr

/-- The `context.Background()` context: never cancelled, no deadline. -/
def Background : Context := ⟨none⟩

/-- The `context.WithDeadline` constructor: the child expires at `d`, unless the parent
expires earlier. -/
def WithDeadline (parent : Context) (d : Nat) : Context :=
  match parent.deadline with
  | some p => if p ≤ d then parent else ⟨some d⟩
  | none => ⟨some d⟩

/-- The `context.WithTimeout(parent, timeout)` constructor, evaluated at clock value `now`:
it is `WithDeadline(parent, now + timeout)`. -/
def WithTimeout (parent : Context) (timeout : Nat) (now : Nat) : Context :=
  WithDeadline parent (now + timeout)

/-- The error a call resolves with when its context expires. -/
def DeadlineExceeded : GoError := ⟨"context deadline exceeded"⟩

/-- The error `ClientConn.Close` reports on a connection that is already closed. -/
def ErrClientConnClosing : GoError := ⟨"grpc: the client connection is closing"⟩

/-- A dialled gRPC connection, named by a handle. -/
structure ClientConn where
  id : Nat
deriving DecidableEq, Repr

/-! ## IAM wire records (fields the hook reads and writes) -/

/-- Request of the remote `Authenticate` operation. -/
structure AuthenticateRequest where
  ClientId : String
  Token : String
deriving DecidableEq, Repr

/-- Response of the remote `Authenticate` operation. -/
structure AuthenticateResponse where
  Success : Bool
  Error : String
deriving DecidableEq, Repr

/-- Request of the remote `Authorize` operation. -/
structure AuthorizeRequest where
  ClientId : String
  Topic : String
  Write : Bool
deriving DecidableEq, Repr

/-- Response of the remote `Authorize` operation. -/
structure AuthorizeResponse where
  Allowed : Bool
  Error : String
deriving DecidableEq, Repr

/-! ## Broker types -/

/-- The broker's client record; the hook reads only `ID`. -/
structure Client where
  ID : String
deriving DecidableEq, Repr

/-- Connect parameters of a packet; the hook reads only `Password`. -/
structure ConnectParams where
  Username : String
  Password : String
  Clean : Bool
deriving DecidableEq, Repr

/-- The broker's packet record (passed by value). -/
structure Packet where
  Connect : ConnectParams
  TopicName : String
  Payload : List Nat
  PacketID : Nat
  ProtocolVersion : Nat
deriving DecidableEq, Repr

/-- Codes of the broker's extension points the hook mentions (constants of the broker
library, taken as parameters). -/
structure HookEvents where
  OnConnectAuthenticate : Nat
  OnACLCheck : Nat
  OnAuthPacket : Nat
deriving DecidableEq, Repr

/-! ## World -/

/-- A remote call issued on the IAM client, with the context and request it was given. -/
inductive RemoteCall where
  | authenticate (ctx : Context) (req : AuthenticateRequest)
  | authorize (ctx : Context) (req : AuthorizeRequest)
deriving DecidableEq, Repr

/-- Everything outside the hook that its methods read or change. -/
structure World where
  now : Nat
  logs : List String
  calls : List RemoteCall
  closed : List ClientConn
deriving DecidableEq, Repr

/-- What a remote `Authenticate` call hands back: the response pointer, the error, and
the time the call took to resolve. -/
structure AuthenticateResult where
  resp : Option AuthenticateResponse
  err : Option GoError
  took : Nat
deriving DecidableEq, Repr

/-- What a remote `Authorize` call hands back. -/
structure AuthorizeResult where
  resp : Option AuthorizeResponse
  err : Option GoError
  took : Nat
deriving DecidableEq, Repr

/-- The `iam.IAMClient` interface: any implementation, its answers free to depend on the
state of the world, the context and the request. -/
structure IAMClient where
  Authenticate : World → Context → AuthenticateRequest → AuthenticateResult
  Authorize : World → Context → AuthorizeRequest → AuthorizeResult

/-- What `grpc.DialContext` hands back. -/
structure DialResult where
  conn : Option ClientConn
  err : Option GoError
  took : Nat
deriving DecidableEq, Repr

/-- The gRPC entry points used at construction, taken as parameters. The dial options
of the source (insecure transport credentials, blocking dial) are the same at every call
and are part of `DialContext`. -/
structure Grpc where
  DialContext : World → Context → String → DialResult
  NewIAMClient : Option ClientConn → IAMClient

/-- A call of `log.Printf` / `log.Println`: one record appended to the log. The record
is the formatted message; the date and time the standard logger puts in front of it and
the closing newline are left out. -/
def logPrint (w : World) (record : String) : World :=
  { w with logs := w.logs ++ [record] }

/-- A remote call has been issued and has resolved after `took` nanoseconds. -/
def rpcReturn (w : World) (call : RemoteCall) (took : Nat) : World :=
  { w with now := w.now + took, calls := w.calls ++ [call] }

/-- Modelled from the spec: the Remote Channel is released by closing it, and it closes
exactly once; closing it a second time is an error of the caller. -/
def connClose (c : ClientConn) (w : World) : Option GoError × World :=
  if c ∈ w.closed then (some ErrClientConnClosing, w)
  else (none, { w with closed := c :: w.closed })

/-- The `%v` rendering of a boolean. -/
def fmtBool (b : Bool) : String := if b then "true" else "false"

/-! ## The hook -/

/-- The hook: the IAM client and the connection it was built on. -/
structure IAMAuthHook where
  iamClient : IAMClient
  conn : Option ClientConn

/-- Constructor of the hook: dials the IAM service under a 5 second timeout. -/
def NewIAMAuthHook (g : Grpc) (iamAddr : String) (w : World) :
    (Option IAMAuthHook × Option GoError) × World :=
  let ctx := WithTimeout Background (5 * Second) w.now
  let d := g.DialContext w ctx iamAddr
  let w1 : World := { w with now := w.now + d.took }
  match d.err with
  | some err =>
    ((none, some err),
      logPrint w1 ("Failed to connect to IAM service at " ++ iamAddr ++ ": " ++ err.Error))
  | none =>
    let client := g.NewIAMClient d.conn
    ((some { iamClient := client, conn := d.conn }, none), w1)

/-- Identifier of the hook. -/
def ID (_h : IAMAuthHook) : String := "iam-auth-hook"

/-- Capabilities of the hook. -/
def Provides (ev : HookEvents) (_h : IAMAuthHook) (b : Nat) : Bool :=
  b == ev.OnConnectAuthenticate || b == ev.OnACLCheck

/-- Initialisation of the hook: logs and succeeds. -/
def Init (_h : IAMAuthHook) (w : World) : Option GoError × World :=
  (none, logPrint w "IAMAuthHook initialized")

/-- Shutdown of the hook: closes the gRPC connection. -/
def Stop (h : IAMAuthHook) (w : World) : Except Fault (Option GoError) × World :=
  let w1 := logPrint w "Closing IAMAuthHook gRPC connection"
  match h.conn with
  | none => (.error .nilPointerDereference, w1)
  | some c =>
    let r := connClose c w1
    (.ok r.1, r.2)

/-- Connect-time authentication through the IAM service. The deferred `cancel()` only
releases the context after the verdict is fixed and has no counterpart here. -/
def OnConnectAuthenticate (h : IAMAuthHook) (cl : Client) (pk : Packet) (w : World) :
    Except Fault Bool × World :=
  let ctx := WithTimeout Background (2 * Second) w.now
  let req : AuthenticateRequest := { ClientId := cl.ID, Token := pk.Connect.Password }
  let out := h.iamClient.Authenticate w ctx req
  let w1 := rpcReturn w (.authenticate ctx req) out.took
  match out.err with
  | some err =>
    (.ok false,
      logPrint w1 ("Authentication failed for client " ++ cl.ID ++ ": " ++ err.Error))
  | none =>
    match out.resp with
    | none => (.error .nilPointerDereference, w1)
    | some resp =>
      if !resp.Success then
        (.ok false,
          logPrint w1 ("Authentication denied for client " ++ cl.ID ++ ": " ++ resp.Error))
      else
        (.ok true, logPrint w1 ("Client " ++ cl.ID ++ " authenticated successfully"))

/-- Topic access check through the IAM service (same shape as `OnConnectAuthenticate`). -/
def OnACLCheck (h : IAMAuthHook) (cl : Client) (topic : String) (write : Bool) (w : World) :
    Except Fault Bool × World :=
  let ctx := WithTimeout Background (2 * Second) w.now
  let req : AuthorizeRequest := { ClientId := cl.ID, Topic := topic, Write := write }
  let out := h.iamClient.Authorize w ctx req
  let w1 := rpcReturn w (.authorize ctx req) out.took
  match out.err with
  | some err =>
    (.ok false,
      logPrint w1 ("Authorization failed for client " ++ cl.ID ++ " on topic " ++ topic
        ++ ": " ++ err.Error))
  | none =>
    match out.resp with
    | none => (.error .nilPointerDereference, w1)
    | some resp =>
      if !resp.Allowed then
        (.ok false,
          logPrint w1 ("Authorization denied for client " ++ cl.ID ++ " on topic " ++ topic
            ++ ": " ++ resp.Error))
      else
        (.ok true,
          logPrint w1 ("Client " ++ cl.ID ++ " authorized for topic " ++ topic
            ++ " (write: " ++ fmtBool write ++ ")"))

/-- Handler of authentication packets: not used, the packet goes back unchanged. -/
def OnAuthPacket (_h : IAMAuthHook) (_cl : Client) (pk : Packet) (w : World) :
    (Packet × Option GoError) × World :=
  ((pk, none), w)

/-! ## Test fixtures -/

/-- A client stub that gives the same answer to every call. -/
def constClient (a : AuthenticateResult) (z : AuthorizeResult) : IAMClient where
  Authenticate := fun _ _ _ => a
  Authorize := fun _ _ _ => z

/-- The empty world at clock value 0. -/
def world0 : World := { now := 0, logs := [], calls := [], closed := [] }

/-- A connect packet carrying the given password. -/
def connectPacket (password : String) : Packet :=
  { Connect := { Username := "", Password := password, Clean := true },
    TopicName := "", Payload := [], PacketID := 0, ProtocolVersion := 4 }

/-- A hook over a stub that answers every call the same way, on connection 1. -/
def stubHook (a : AuthenticateResult) (z : AuthorizeResult) : IAMAuthHook :=
  { iamClient := constClient a z, conn := some ⟨1⟩ }

/-- Stub answer: authentication succeeded. -/
def authOk : AuthenticateResult := ⟨some ⟨true, ""⟩, none, 5⟩

/-- Stub answer: authentication explicitly denied. -/
def authDenied : AuthenticateResult := ⟨some ⟨false, "bad token"⟩, none, 5⟩

/-- Stub answer: access allowed. -/
def aclOk : AuthorizeResult := ⟨some ⟨true, ""⟩, none, 5⟩

/-- Stub answer: the transport failed. -/
def aclUnreachable : AuthorizeResult := ⟨none, some ⟨"connection refused"⟩, 5⟩

/-! ## Outcome of the remote call a decision method issues -/

/-- The answer of the remote `Authenticate` operation to the call that
`OnConnectAuthenticate` issues in world `w`. -/
def connectOutcome (h : IAMAuthHook) (cl : Client) (pk : Packet) (w : World) :
    AuthenticateResult :=
  h.iamClient.Authenticate w (WithTimeout Background (2 * Second) w.now)
    { ClientId := cl.ID, Token := pk.Connect.Password }

/-- The answer of the remote `Authorize` operation to the call that `OnACLCheck` issues
in world `w`. -/
def aclOutcome (h : IAMAuthHook) (cl : Client) (topic : String) (write : Bool) (w : World) :
    AuthorizeResult :=
  h.iamClient.Authorize w (WithTimeout Background (2 * Second) w.now)
    { ClientId := cl.ID, Topic := topic, Write := write }

/-! ## Capabilities and pass-through -/

/-- Event codes as the broker library numbers them (an enumeration, so pairwise distinct). -/
def brokerEvents : HookEvents :=
  { OnConnectAuthenticate := 4, OnACLCheck := 5, OnAuthPacket := 10 }

/-! ## Construction -/

/-- The answer of `grpc.DialContext` to the dial that `NewIAMAuthHook` issues in
world `w`. -/
def dialOutcome (g : Grpc) (iamAddr : String) (w : World) : DialResult :=
  g.DialContext w (WithTimeout Background (5 * Second) w.now) iamAddr

/-- A gRPC layer whose dial always hands back the given result. -/
def constGrpc (d : DialResult) (a : AuthenticateResult) (z : AuthorizeResult) : Grpc where
  DialContext := fun _ _ _ => d
  NewIAMClient := fun _ => constClient a z

/-! ## Faults -/

/-- Stub answer: a nil response together with a nil error. -/
def authNilNil : AuthenticateResult := ⟨none, none, 5⟩

/-- Stub answer of `Authorize`: a nil response together with a nil error. -/
def aclNilNil : AuthorizeResult := ⟨none, none, 5⟩

/-! ## Decisions after shutdown -/

/-- The client of the hook resolves every call as an error once the connection of the
hook is closed (what a client built on a gRPC connection does after `Close`). -/
def FailsOnClosedConn (h : IAMAuthHook) : Prop :=
  ∀ c, h.conn = some c → ∀ (w : World) (ctx : Context), c ∈ w.closed →
    (∀ req, (h.iamClient.Authenticate w ctx req).err ≠ none) ∧
    (∀ req, (h.iamClient.Authorize w ctx req).err ≠ none)

/-- A client built on connection `c`: it resolves every call as an error once `c` is
closed, and answers `a` and `z` before that. -/
def connClient (c : ClientConn) (a : AuthenticateResult) (z : AuthorizeResult) :
    IAMClient where
  Authenticate := fun w _ _ =>
    if c ∈ w.closed then ⟨none, some ErrClientConnClosing, 0⟩ else a
  Authorize := fun w _ _ =>
    if c ∈ w.closed then ⟨none, some ErrClientConnClosing, 0⟩ else z

/-- A hook on connection 1 whose client is built on that connection. -/
def connHook (a : AuthenticateResult) (z : AuthorizeResult) : IAMAuthHook :=
  { iamClient := connClient ⟨1⟩ a z, conn := some ⟨1⟩ }

/-! ## Log records and the credential -/

/-- The records appended to the log between two worlds. -/
def emittedLogs (before after : World) : List String :=
  after.logs.drop before.logs.length

/-- The text `text` occurs in the log record `record`. -/
def containsText (record text : String) : Prop :=
  text.data <:+: record.data

/-- Stub answer: an explicit denial whose error detail repeats the token it was given. -/
def authDeniedEcho : AuthenticateResult := ⟨some ⟨false, "bad token s3cret"⟩, none, 5⟩

/-! ## Deadlines -/

/-- Modelled from the spec: both operations of the Remote Channel honour the supplied
deadline, and here the remote never responds: every call resolves as a timeout error at
the deadline it was given. -/
def UnansweredUntilDeadline (c : IAMClient) : Prop :=
  ∀ (w : World) (ctx : Context) (d : Nat), ctx.deadline = some d → w.now ≤ d →
    (∀ req, (c.Authenticate w ctx req).err = some DeadlineExceeded ∧
      w.now + (c.Authenticate w ctx req).took = d) ∧
    (∀ req, (c.Authorize w ctx req).err = some DeadlineExceeded ∧
      w.now + (c.Authorize w ctx req).took = d)

/-- A remote that never responds, behind a channel that honours the deadline: a call
resolves as a timeout error when its deadline is reached. -/
def silentClient : IAMClient where
  Authenticate := fun w ctx _ =>
    ⟨none, some DeadlineExceeded, (ctx.deadline.getD w.now) - w.now⟩
  Authorize := fun w ctx _ =>
    ⟨none, some DeadlineExceeded, (ctx.deadline.getD w.now) - w.now⟩

/-! # Theorems -/

/-! ## Verdict mapping -/

/-- Verdict of `OnConnectAuthenticate` in terms of the remote outcome. -/
lemma connect_verdict (h : IAMAuthHook) (cl : Client) (pk : Packet) (w : World) :
    (OnConnectAuthenticate h cl pk w).1 =
      match (connectOutcome h cl pk w).err, (connectOutcome h cl pk w).resp with
      | some _, _ => .ok false
      | none, none => .error .nilPointerDereference
      | none, some r => .ok r.Success := by
  simp only [OnConnectAuthenticate, connectOutcome]
  generalize h.iamClient.Authenticate w (WithTimeout Background (2 * Second) w.now)
    { ClientId := cl.ID, Token := pk.Connect.Password } = out
  rcases out with ⟨resp, err, took⟩
  cases err with
  | some e => rfl
  | none =>
    cases resp with
    | none => rfl
    | some r => cases hr : r.Success <;> simp [hr]

/-- Verdict of `OnACLCheck` in terms of the remote outcome. -/
lemma acl_verdict (h : IAMAuthHook) (cl : Client) (topic : String) (write : Bool)
    (w : World) :
    (OnACLCheck h cl topic write w).1 =
      match (aclOutcome h cl topic write w).err, (aclOutcome h cl topic write w).resp with
      | some _, _ => .ok false
      | none, none => .error .nilPointerDereference
      | none, some r => .ok r.Allowed := by
  simp only [OnACLCheck, aclOutcome]
  generalize h.iamClient.Authorize w (WithTimeout Background (2 * Second) w.now)
    { ClientId := cl.ID, Topic := topic, Write := write } = out
  rcases out with ⟨resp, err, took⟩
  cases err with
  | some e => rfl
  | none =>
    cases resp with
    | none => rfl
    | some r => cases hr : r.Allowed <;> simp [hr]

/-- C1: `OnConnectAuthenticate` returns true if and only if the remote `Authenticate`
call came back with a nil error and a response whose `Success` is true; any error
(transport, deadline exceeded) and any response with `Success = false` return false. -/
theorem OnConnectAuthenticate_true_iff (h : IAMAuthHook) (cl : Client) (pk : Packet)
    (w : World) :
    ((OnConnectAuthenticate h cl pk w).1 = .ok true ↔
        (connectOutcome h cl pk w).err = none ∧
          ∃ r, (connectOutcome h cl pk w).resp = some r ∧ r.Success = true) ∧
    ((connectOutcome h cl pk w).err ≠ none →
        (OnConnectAuthenticate h cl pk w).1 = .ok false) ∧
    (∀ r, (connectOutcome h cl pk w).err = none →
        (connectOutcome h cl pk w).resp = some r → r.Success = false →
        (OnConnectAuthenticate h cl pk w).1 = .ok false) := by
  rw [connect_verdict]
  rcases connectOutcome h cl pk w with ⟨resp, err, took⟩
  cases err with
  | some e => simp
  | none =>
    cases resp with
    | none => simp
    | some r => cases hr : r.Success <;> simp [hr]

/-- Witness of C1 (scenario 1 of the spec): the stub signals success for "dev1". -/
theorem OnConnectAuthenticate_true_iff_witness :
    (OnConnectAuthenticate (stubHook authOk aclOk) ⟨"dev1"⟩ (connectPacket "tok") world0).1
      = .ok true :=
  (OnConnectAuthenticate_true_iff (stubHook authOk aclOk) ⟨"dev1"⟩ (connectPacket "tok")
    world0).1.2 ⟨rfl, ⟨true, ""⟩, rfl, rfl⟩

/-- C2: `OnACLCheck` returns true if and only if the remote `Authorize` call came back
with a nil error and a response whose `Allowed` is true; two checks whose remote outcomes
agree in error and response get the same verdict, whatever their topics and write
flags. -/
theorem OnACLCheck_true_iff (h : IAMAuthHook) (cl : Client) (topic : String) (write : Bool)
    (w : World) :
    ((OnACLCheck h cl topic write w).1 = .ok true ↔
        (aclOutcome h cl topic write w).err = none ∧
          ∃ r, (aclOutcome h cl topic write w).resp = some r ∧ r.Allowed = true) ∧
    (∀ (topic2 : String) (write2 : Bool),
        (aclOutcome h cl topic2 write2 w).err = (aclOutcome h cl topic write w).err →
        (aclOutcome h cl topic2 write2 w).resp = (aclOutcome h cl topic write w).resp →
        (OnACLCheck h cl topic2 write2 w).1 = (OnACLCheck h cl topic write w).1) := by
  refine ⟨?_, ?_⟩
  · rw [acl_verdict]
    rcases aclOutcome h cl topic write w with ⟨resp, err, took⟩
    cases err with
    | some e => simp
    | none =>
      cases resp with
      | none => simp
      | some r => cases hr : r.Allowed <;> simp [hr]
  · intro topic2 write2 he hr
    rw [acl_verdict, acl_verdict, he, hr]

/-- Witness of C2 (scenario 4 of the spec): the stub allows a read of "sensors/temp". -/
theorem OnACLCheck_true_iff_witness :
    (OnACLCheck (stubHook authOk aclOk) ⟨"dev1"⟩ "sensors/temp" false world0).1 = .ok true ∧
    (OnACLCheck (stubHook authOk aclOk) ⟨"dev1"⟩ "other" true world0).1 =
      (OnACLCheck (stubHook authOk aclOk) ⟨"dev1"⟩ "sensors/temp" false world0).1 :=
  ⟨(OnACLCheck_true_iff (stubHook authOk aclOk) ⟨"dev1"⟩ "sensors/temp" false world0).1.2
      ⟨rfl, ⟨true, ""⟩, rfl, rfl⟩,
    (OnACLCheck_true_iff (stubHook authOk aclOk) ⟨"dev1"⟩ "sensors/temp" false world0).2
      "other" true rfl rfl⟩

/-! ## Capabilities and pass-through -/

/-- C5: `Provides b` is true if and only if `b` is the connect-authenticate event or the
ACL-check event; in particular it is false at the auth-packet event, whose code differs
from both. -/
theorem Provides_true_iff (ev : HookEvents) (h : IAMAuthHook) :
    (∀ b : Nat, Provides ev h b = true ↔ (b = ev.OnConnectAuthenticate ∨ b = ev.OnACLCheck)) ∧
    (ev.OnAuthPacket ≠ ev.OnConnectAuthenticate → ev.OnAuthPacket ≠ ev.OnACLCheck →
      Provides ev h ev.OnAuthPacket = false) := by
  refine ⟨fun b => ?_, fun h1 h2 => ?_⟩
  · simp [Provides]
  · simp [Provides, h1, h2]

/-- Witness of C5 on the broker's event codes. -/
theorem Provides_true_iff_witness :
    Provides brokerEvents (stubHook authOk aclOk) brokerEvents.OnAuthPacket = false :=
  (Provides_true_iff brokerEvents (stubHook authOk aclOk)).2 (by decide) (by decide)

/-- C6: `OnAuthPacket` returns its input packet, unchanged in every field, together with
a nil error, and leaves the world as it found it: no remote call, no log record. -/
theorem OnAuthPacket_passthrough (h : IAMAuthHook) (cl : Client) (pk : Packet) (w : World) :
    (OnAuthPacket h cl pk w).1 = (pk, none) ∧
    (OnAuthPacket h cl pk w).2 = w ∧
    (OnAuthPacket h cl pk w).2.calls = w.calls :=
  ⟨rfl, rfl, rfl⟩

/-! ## Remote calls issued -/

/-- The calls issued by the two decision methods. -/
lemma calls_after_decision (h : IAMAuthHook) (cl : Client) (pk : Packet)
    (topic : String) (write : Bool) (w : World) :
    (OnConnectAuthenticate h cl pk w).2.calls =
      w.calls ++ [RemoteCall.authenticate (WithTimeout Background (2 * Second) w.now)
        { ClientId := cl.ID, Token := pk.Connect.Password }] ∧
    (OnACLCheck h cl topic write w).2.calls =
      w.calls ++ [RemoteCall.authorize (WithTimeout Background (2 * Second) w.now)
        { ClientId := cl.ID, Topic := topic, Write := write }] := by
  constructor
  · simp only [OnConnectAuthenticate]
    generalize h.iamClient.Authenticate w (WithTimeout Background (2 * Second) w.now)
      { ClientId := cl.ID, Token := pk.Connect.Password } = out
    rcases out with ⟨resp, err, took⟩
    cases err with
    | some e => rfl
    | none =>
      cases resp with
      | none => rfl
      | some r => cases hr : r.Success <;> simp [hr, logPrint, rpcReturn]
  · simp only [OnACLCheck]
    generalize h.iamClient.Authorize w (WithTimeout Background (2 * Second) w.now)
      { ClientId := cl.ID, Topic := topic, Write := write } = out
    rcases out with ⟨resp, err, took⟩
    cases err with
    | some e => rfl
    | none =>
      cases resp with
      | none => rfl
      | some r => cases hr : r.Allowed <;> simp [hr, logPrint, rpcReturn]

/-- C7: each decision call appends exactly one remote call to the calls issued so far,
whatever the call hands back: `OnConnectAuthenticate` one `Authenticate` call whose
request carries the client's id and the connect password, `OnACLCheck` one `Authorize`
call whose request carries the client's id, the topic and the write flag. -/
theorem decision_issues_one_call (h : IAMAuthHook) (cl : Client) (pk : Packet)
    (topic : String) (write : Bool) (w : World) :
    (OnConnectAuthenticate h cl pk w).2.calls =
      w.calls ++ [RemoteCall.authenticate (WithTimeout Background (2 * Second) w.now)
        { ClientId := cl.ID, Token := pk.Connect.Password }] ∧
    (OnACLCheck h cl topic write w).2.calls =
      w.calls ++ [RemoteCall.authorize (WithTimeout Background (2 * Second) w.now)
        { ClientId := cl.ID, Topic := topic, Write := write }] :=
  calls_after_decision h cl pk topic write w

/-! ## Construction -/

/-- C8: `NewIAMAuthHook` returns a hook exactly when it returns a nil error. When the
dial hands back an error, the result is no hook and that same error; when it hands back
a nil error, the result is a hook whose `conn` is the dialled connection and whose client
is built on that connection, and a nil error. -/
theorem NewIAMAuthHook_result (g : Grpc) (iamAddr : String) (w : World) :
    (((NewIAMAuthHook g iamAddr w).1.1.isSome = true ↔ (NewIAMAuthHook g iamAddr w).1.2 = none)) ∧
    (∀ e, (dialOutcome g iamAddr w).err = some e →
      (NewIAMAuthHook g iamAddr w).1.1.isNone = true ∧
      (NewIAMAuthHook g iamAddr w).1.2 = some e) ∧
    ((dialOutcome g iamAddr w).err = none →
      (NewIAMAuthHook g iamAddr w).1.2 = none ∧
      ∃ hook, (NewIAMAuthHook g iamAddr w).1.1 = some hook ∧
        hook.conn = (dialOutcome g iamAddr w).conn ∧
        hook.iamClient = g.NewIAMClient (dialOutcome g iamAddr w).conn) := by
  simp only [NewIAMAuthHook, dialOutcome]
  generalize g.DialContext w (WithTimeout Background (5 * Second) w.now) iamAddr = d
  rcases d with ⟨conn, err, took⟩
  cases err with
  | some e => simp
  | none => simp

/-- Witness of C8: a refused dial yields no hook and the dial's error; a successful dial
yields a hook on the dialled connection. -/
theorem NewIAMAuthHook_result_witness :
    ((NewIAMAuthHook (constGrpc ⟨none, some ⟨"connection refused"⟩, 7⟩ authOk aclOk)
        "iam:50051" world0).1.1.isNone = true ∧
      (NewIAMAuthHook (constGrpc ⟨none, some ⟨"connection refused"⟩, 7⟩ authOk aclOk)
        "iam:50051" world0).1.2 = some ⟨"connection refused"⟩) ∧
    (NewIAMAuthHook (constGrpc ⟨some ⟨1⟩, none, 7⟩ authOk aclOk) "iam:50051" world0).1.2
      = none :=
  ⟨(NewIAMAuthHook_result (constGrpc ⟨none, some ⟨"connection refused"⟩, 7⟩ authOk aclOk)
      "iam:50051" world0).2.1 ⟨"connection refused"⟩ rfl,
    ((NewIAMAuthHook_result (constGrpc ⟨some ⟨1⟩, none, 7⟩ authOk aclOk)
      "iam:50051" world0).2.2 rfl).1⟩

/-! ## Faults -/

/-- Counterexample to C10 as stated: when the remote call hands back a nil response
together with a nil error, both decision methods fault on the nil dereference and return
no boolean. -/
theorem decision_faults_on_nil_response :
    (OnConnectAuthenticate (stubHook authNilNil aclNilNil) ⟨"dev1"⟩ (connectPacket "tok")
        world0).1 = .error .nilPointerDereference ∧
    (OnACLCheck (stubHook authNilNil aclNilNil) ⟨"dev1"⟩ "sensors/temp" false world0).1
      = .error .nilPointerDereference ∧
    ¬ (∃ b : Bool, (OnConnectAuthenticate (stubHook authNilNil aclNilNil) ⟨"dev1"⟩
        (connectPacket "tok") world0).1 = .ok b) := by
  refine ⟨rfl, rfl, ?_⟩
  rintro ⟨b, hb⟩
  have h0 : (OnConnectAuthenticate (stubHook authNilNil aclNilNil) ⟨"dev1"⟩
      (connectPacket "tok") world0).1 = .error .nilPointerDereference := rfl
  rw [h0] at hb
  cases hb

/-- C10 (amended): whenever the remote call hands back a non-nil error or a non-nil
response, the decision method returns a plain boolean, and that boolean is true only if
the response signals success. -/
theorem decision_returns_bool (h : IAMAuthHook) (cl : Client) (pk : Packet)
    (topic : String) (write : Bool) (w : World) :
    (((connectOutcome h cl pk w).err ≠ none ∨ (connectOutcome h cl pk w).resp ≠ none) →
      ∃ b : Bool, (OnConnectAuthenticate h cl pk w).1 = .ok b ∧
        (b = true → ∃ r, (connectOutcome h cl pk w).resp = some r ∧ r.Success = true)) ∧
    (((aclOutcome h cl topic write w).err ≠ none ∨
        (aclOutcome h cl topic write w).resp ≠ none) →
      ∃ b : Bool, (OnACLCheck h cl topic write w).1 = .ok b ∧
        (b = true → ∃ r, (aclOutcome h cl topic write w).resp = some r ∧ r.Allowed = true)) := by
  constructor
  · rw [connect_verdict]
    rcases connectOutcome h cl pk w with ⟨resp, err, took⟩
    cases err with
    | some e => simp
    | none =>
      cases resp with
      | none => simp
      | some r => simp
  · rw [acl_verdict]
    rcases aclOutcome h cl topic write w with ⟨resp, err, took⟩
    cases err with
    | some e => simp
    | none =>
      cases resp with
      | none => simp
      | some r => simp

/-- Witness of the amended C10: an explicit denial and an unreachable remote both come
back as a boolean. -/
theorem decision_returns_bool_witness :
    (∃ b : Bool, (OnConnectAuthenticate (stubHook authDenied aclUnreachable) ⟨"dev2"⟩
        (connectPacket "x") world0).1 = .ok b ∧
      (b = true → ∃ r, (connectOutcome (stubHook authDenied aclUnreachable) ⟨"dev2"⟩
        (connectPacket "x") world0).resp = some r ∧ r.Success = true)) ∧
    (∃ b : Bool, (OnACLCheck (stubHook authDenied aclUnreachable) ⟨"dev2"⟩ "t" true
        world0).1 = .ok b ∧
      (b = true → ∃ r, (aclOutcome (stubHook authDenied aclUnreachable) ⟨"dev2"⟩ "t" true
        world0).resp = some r ∧ r.Allowed = true)) :=
  ⟨(decision_returns_bool (stubHook authDenied aclUnreachable) ⟨"dev2"⟩ (connectPacket "x")
      "t" true world0).1 (Or.inr (by decide)),
    (decision_returns_bool (stubHook authDenied aclUnreachable) ⟨"dev2"⟩ (connectPacket "x")
      "t" true world0).2 (Or.inl (by decide))⟩

/-! ## Decisions after shutdown -/

/-- After `Stop`, the connection of the hook is among the closed ones. -/
lemma Stop_closes (h : IAMAuthHook) (w w1 : World) (e : Option GoError)
    (hs : Stop h w = (.ok e, w1)) : ∃ c, h.conn = some c ∧ c ∈ w1.closed := by
  unfold Stop at hs
  cases hc : h.conn with
  | none => simp [hc] at hs
  | some c =>
    refine ⟨c, rfl, ?_⟩
    simp only [hc, connClose, logPrint] at hs
    by_cases hmem : c ∈ w.closed
    · simp only [hmem, if_true, Prod.mk.injEq] at hs
      rw [← hs.2]
      exact hmem
    · simp only [hmem, if_false, Prod.mk.injEq] at hs
      rw [← hs.2]
      exact List.mem_cons_self _ _

/-- Counterexample to C3 as stated: the hook keeps no record of its shutdown, so when the
client stub still answers success after `Stop`, both decision methods return true. -/
theorem decision_after_Stop_allows :
    (Stop (stubHook authOk aclOk) world0).1 = .ok none ∧
    (OnConnectAuthenticate (stubHook authOk aclOk) ⟨"dev1"⟩ (connectPacket "tok")
      (Stop (stubHook authOk aclOk) world0).2).1 = .ok true ∧
    (OnACLCheck (stubHook authOk aclOk) ⟨"dev1"⟩ "sensors/temp" false
      (Stop (stubHook authOk aclOk) world0).2).1 = .ok true := by
  exact ⟨rfl, rfl, rfl⟩

/-- C3 (amended): when the client of the hook resolves calls on a closed connection as
errors, then in every world reached after `Stop` (the connection stays closed) both
decision methods return false. -/
theorem decision_after_Stop_denies (h : IAMAuthHook) (hc : FailsOnClosedConn h)
    (w w1 : World) (e : Option GoError) (hs : Stop h w = (.ok e, w1))
    (w2 : World) (hsub : w1.closed ⊆ w2.closed)
    (cl : Client) (pk : Packet) (topic : String) (write : Bool) :
    (OnConnectAuthenticate h cl pk w2).1 = .ok false ∧
    (OnACLCheck h cl topic write w2).1 = .ok false := by
  obtain ⟨c, hconn, hmem⟩ := Stop_closes h w w1 e hs
  have hcl := hc c hconn w2 (WithTimeout Background (2 * Second) w2.now) (hsub hmem)
  constructor
  · have h1 := hcl.1 { ClientId := cl.ID, Token := pk.Connect.Password }
    rw [connect_verdict]
    cases herr : (connectOutcome h cl pk w2).err with
    | none => exact absurd herr h1
    | some e => rfl
  · have h2 := hcl.2 { ClientId := cl.ID, Topic := topic, Write := write }
    rw [acl_verdict]
    cases herr : (aclOutcome h cl topic write w2).err with
    | none => exact absurd herr h2
    | some e => rfl

/-- Witness of the amended C3: a hook whose client is built on its connection denies
after `Stop`, although the remote would answer success. -/
theorem decision_after_Stop_denies_witness :
    (OnConnectAuthenticate (connHook authOk aclOk) ⟨"dev1"⟩ (connectPacket "tok")
      (Stop (connHook authOk aclOk) world0).2).1 = .ok false ∧
    (OnACLCheck (connHook authOk aclOk) ⟨"dev1"⟩ "sensors/temp" false
      (Stop (connHook authOk aclOk) world0).2).1 = .ok false :=
  decision_after_Stop_denies (connHook authOk aclOk)
    (by
      intro c hc w ctx hmem
      have hc1 : c = ⟨1⟩ := by
        simp only [connHook, Option.some.injEq] at hc
        exact hc.symm
      subst hc1
      constructor <;> intro req <;> simp [connHook, connClient, hmem])
    world0 (Stop (connHook authOk aclOk) world0).2 none rfl
    (Stop (connHook authOk aclOk) world0).2 (fun _ hx => hx)
    ⟨"dev1"⟩ (connectPacket "tok") "sensors/temp" false

/-! ## Log records and the credential -/

/-- Counterexample to C4 as stated: the denial record carries the error detail of the
remote verbatim, so when that detail repeats the credential, the record emitted by
`OnConnectAuthenticate` contains the credential. -/
theorem connect_log_contains_credential :
    emittedLogs world0
        (OnConnectAuthenticate (stubHook authDeniedEcho aclOk) ⟨"dev2"⟩
          (connectPacket "s3cret") world0).2
      = ["Authentication denied for client dev2: bad token s3cret"] ∧
    containsText "Authentication denied for client dev2: bad token s3cret" "s3cret" := by
  refine ⟨by decide, ?_⟩
  exact ⟨"Authentication denied for client dev2: bad token ".data, [], by decide⟩

/-- The records `OnConnectAuthenticate` emits, by remote outcome. -/
lemma connect_emitted (h : IAMAuthHook) (cl : Client) (pk : Packet) (w : World) :
    emittedLogs w (OnConnectAuthenticate h cl pk w).2 =
      match (connectOutcome h cl pk w).err, (connectOutcome h cl pk w).resp with
      | some e, _ => ["Authentication failed for client " ++ cl.ID ++ ": " ++ e.Error]
      | none, none => []
      | none, some r =>
        if r.Success then ["Client " ++ cl.ID ++ " authenticated successfully"]
        else ["Authentication denied for client " ++ cl.ID ++ ": " ++ r.Error] := by
  simp only [OnConnectAuthenticate, connectOutcome, emittedLogs]
  generalize h.iamClient.Authenticate w (WithTimeout Background (2 * Second) w.now)
    { ClientId := cl.ID, Token := pk.Connect.Password } = out
  rcases out with ⟨resp, err, took⟩
  cases err with
  | some e => simp [logPrint, rpcReturn]
  | none =>
    cases resp with
    | none => simp [rpcReturn]
    | some r => cases hr : r.Success <;> simp [hr, logPrint, rpcReturn]

/-- C4 (amended): the credential is no argument of any log call of
`OnConnectAuthenticate`. What it emits is fixed by the client id and the remote outcome:
on an error the one record "Authentication failed for client ID: ERR", on an explicit
denial the one record "Authentication denied for client ID: DETAIL", on success the one
record "Client ID authenticated successfully" (and nothing when response and error are
both nil). Hence two connect packets that get the same remote outcome produce the same
records, whatever their passwords. -/
theorem connect_log_ignores_credential (h : IAMAuthHook) (cl : Client) (pk pk2 : Packet)
    (w : World) :
    (∀ e, (connectOutcome h cl pk w).err = some e →
      emittedLogs w (OnConnectAuthenticate h cl pk w).2 =
        ["Authentication failed for client " ++ cl.ID ++ ": " ++ e.Error]) ∧
    (∀ r, (connectOutcome h cl pk w).err = none → (connectOutcome h cl pk w).resp = some r →
      r.Success = false →
      emittedLogs w (OnConnectAuthenticate h cl pk w).2 =
        ["Authentication denied for client " ++ cl.ID ++ ": " ++ r.Error]) ∧
    (∀ r, (connectOutcome h cl pk w).err = none → (connectOutcome h cl pk w).resp = some r →
      r.Success = true →
      emittedLogs w (OnConnectAuthenticate h cl pk w).2 =
        ["Client " ++ cl.ID ++ " authenticated successfully"]) ∧
    ((connectOutcome h cl pk w).err = none → (connectOutcome h cl pk w).resp = none →
      emittedLogs w (OnConnectAuthenticate h cl pk w).2 = []) ∧
    ((connectOutcome h cl pk w).err = (connectOutcome h cl pk2 w).err →
      (connectOutcome h cl pk w).resp = (connectOutcome h cl pk2 w).resp →
      emittedLogs w (OnConnectAuthenticate h cl pk w).2 =
        emittedLogs w (OnConnectAuthenticate h cl pk2 w).2) := by
  refine ⟨?_, ?_, ?_, ?_, ?_⟩
  · intro e he
    rw [connect_emitted, he]
  · intro r he hr hs
    rw [connect_emitted, he, hr]
    simp [hs]
  · intro r he hr hs
    rw [connect_emitted, he, hr]
    simp [hs]
  · intro he hr
    rw [connect_emitted, he, hr]
  · intro he hr
    rw [connect_emitted, connect_emitted, he, hr]

/-- Witness of the amended C4: a denial is logged with the client id and the error detail
of the remote, and the same way for two different passwords. -/
theorem connect_log_ignores_credential_witness :
    emittedLogs world0
        (OnConnectAuthenticate (stubHook authDenied aclOk) ⟨"dev2"⟩ (connectPacket "x")
          world0).2 = ["Authentication denied for client " ++ "dev2" ++ ": " ++ "bad token"] ∧
    emittedLogs world0
        (OnConnectAuthenticate (stubHook authDenied aclOk) ⟨"dev2"⟩ (connectPacket "x")
          world0).2 =
      emittedLogs world0
        (OnConnectAuthenticate (stubHook authDenied aclOk) ⟨"dev2"⟩ (connectPacket "y")
          world0).2 :=
  ⟨(connect_log_ignores_credential (stubHook authDenied aclOk) ⟨"dev2"⟩ (connectPacket "x")
      (connectPacket "y") world0).2.1 ⟨false, "bad token"⟩ rfl rfl rfl,
    (connect_log_ignores_credential (stubHook authDenied aclOk) ⟨"dev2"⟩ (connectPacket "x")
      (connectPacket "y") world0).2.2.2.2 rfl rfl⟩

/-! ## Deadlines -/

/-- The context both decision methods build has its deadline 2 seconds after the clock
value at which it is built. -/
lemma decision_ctx_deadline (now : Nat) :
    (WithTimeout Background (2 * Second) now).deadline = some (now + 2000000000) := by
  simp [WithTimeout, WithDeadline, Background, Second]

/-- C9: both decision methods hand the remote operation a context whose deadline is
exactly 2 seconds (2000000000 ns) after the start of the call; against a remote that never
responds behind a channel that resolves such a call as a timeout error at the deadline,
both return false, at the start of the call plus 2 seconds. -/
theorem decision_deadline_two_seconds (h : IAMAuthHook) (cl : Client) (pk : Packet)
    (topic : String) (write : Bool) (w : World) :
    (∃ ctx req, (OnConnectAuthenticate h cl pk w).2.calls =
        w.calls ++ [RemoteCall.authenticate ctx req] ∧
        ctx.deadline = some (w.now + 2000000000)) ∧
    (∃ ctx req, (OnACLCheck h cl topic write w).2.calls =
        w.calls ++ [RemoteCall.authorize ctx req] ∧
        ctx.deadline = some (w.now + 2000000000)) ∧
    (UnansweredUntilDeadline h.iamClient →
      ((OnConnectAuthenticate h cl pk w).1 = .ok false ∧
        (OnConnectAuthenticate h cl pk w).2.now = w.now + 2000000000) ∧
      ((OnACLCheck h cl topic write w).1 = .ok false ∧
        (OnACLCheck h cl topic write w).2.now = w.now + 2000000000)) := by
  refine ⟨⟨_, _, (calls_after_decision h cl pk topic write w).1,
      decision_ctx_deadline w.now⟩,
    ⟨_, _, (calls_after_decision h cl pk topic write w).2,
      decision_ctx_deadline w.now⟩, ?_⟩
  intro hu
  have hd := hu w (WithTimeout Background (2 * Second) w.now) (w.now + 2000000000)
    (decision_ctx_deadline w.now) (Nat.le_add_right _ _)
  constructor
  · have h1 := hd.1 { ClientId := cl.ID, Token := pk.Connect.Password }
    simp only [OnConnectAuthenticate]
    generalize h.iamClient.Authenticate w (WithTimeout Background (2 * Second) w.now)
      { ClientId := cl.ID, Token := pk.Connect.Password } = out at h1 ⊢
    rcases out with ⟨resp, err, took⟩
    simp only at h1
    obtain ⟨he, ht⟩ := h1
    subst he
    exact ⟨rfl, ht⟩
  · have h2 := hd.2 { ClientId := cl.ID, Topic := topic, Write := write }
    simp only [OnACLCheck]
    generalize h.iamClient.Authorize w (WithTimeout Background (2 * Second) w.now)
      { ClientId := cl.ID, Topic := topic, Write := write } = out at h2 ⊢
    rcases out with ⟨resp, err, took⟩
    simp only at h2
    obtain ⟨he, ht⟩ := h2
    subst he
    exact ⟨rfl, ht⟩

/-- Witness of C9 (scenario 5 of the spec): against the silent remote, a check started
at clock value 0 is denied at 2 seconds. -/
theorem decision_deadline_two_seconds_witness :
    ((OnConnectAuthenticate ⟨silentClient, some ⟨1⟩⟩ ⟨"dev1"⟩ (connectPacket "tok")
        world0).1 = .ok false ∧
      (OnConnectAuthenticate ⟨silentClient, some ⟨1⟩⟩ ⟨"dev1"⟩ (connectPacket "tok")
        world0).2.now = world0.now + 2000000000) ∧
    ((OnACLCheck ⟨silentClient, some ⟨1⟩⟩ ⟨"dev1"⟩ "sensors/temp" false world0).1
        = .ok false ∧
      (OnACLCheck ⟨silentClient, some ⟨1⟩⟩ ⟨"dev1"⟩ "sensors/temp" false world0).2.now
        = world0.now + 2000000000) :=
  (decision_deadline_two_seconds ⟨silentClient, some ⟨1⟩⟩ ⟨"dev1"⟩ (connectPacket "tok")
    "sensors/temp" false world0).2.2
    (by
      intro w ctx d hd hle
      constructor <;> intro req <;>
        simp only [silentClient, hd, Option.getD_some, true_and] <;> omega)

end Hooks
